import Mathlib

/-!
Verification of the CommonLib-Shared address-database engine (`REL::IDDB` and
`REL::detail::RelocationIDImpl`) against its natural-language specification.
The C++ under `src/REL/IDDB.cpp` and `include/REL/ID.h` is shallowly embedded:
`std::uint64_t` arithmetic is `Nat` reduced modulo `2 ^ 64` where the source can
wrap, byte streams are `List Nat` of little-endian bytes, and every `REX::FAIL`
site becomes an `Except` error or an `Option` failure.
-/

set_option autoImplicit false

namespace IDDB

/-- Modulus of the C++ `std::uint64_t` arithmetic used throughout `IDDB`. -/
def M : Nat := 2 ^ 64

/-- Embedding of `REL::IDDB::MAPPING`, one record of the sorted-array store
(`struct MAPPING \x7b std::uint64_t id; std::uint64_t offset; \x7d`). -/
structure MAPPING where
  id : Nat
  offset : Nat
deriving DecidableEq, Repr

/-- The fatal error conditions of the loader and resolver (the `REX::FAIL`
sites of `IDDB.cpp` that the claims mention). -/
inductive Err where
  | NoAddressLibrary
  | IdNotFound (id : Nat)
  | VersionMismatch
  | EmptyDatabase
  | MalformedStream
  | FileNotOpenable
deriving DecidableEq, Repr

/-- Read one little-endian `n`-byte unsigned integer from a byte list, as
`IDDB::STREAM::readin` does for `uint8`/`uint16`/`uint32`/`uint64` on x86;
`none` models the stream throwing on EOF. -/
def readLE : Nat → List Nat → Option (Nat × List Nat)
  | 0, bs => some (0, bs)
  | _ + 1, [] => none
  | n + 1, b :: bs => (readLE n bs).map fun p => (b + 256 * p.1, p.2)

/-- Little-endian encoding of `v` into `n` bytes (used by the encoder side of
the round-trip property). -/
def toLE : Nat → Nat → List Nat
  | 0, _ => []
  | n + 1, v => v % 256 :: toLE n (v / 256)

/-- The first `switch (lo)` of `IDDB::unpack_file`, deciding the record id from
the low control nibble: 0 reads an explicit `uint64`, 1 is `prevID + 1`,
2/3 add/subtract a `uint8`, 4/5 add/subtract a `uint16`, 6/7 read an absolute
`uint16`/`uint32`; any other value hits the `REX::FAIL` default arm (`none`).
Unsigned wrap-around is taken mod `M`; subtraction `prev - d` wraps as
`(prev + (M - d % M)) % M`. -/
def idSwitch (prev lo : Nat) (bs : List Nat) : Option (Nat × List Nat) :=
  match lo with
  | 0 => readLE 8 bs
  | 1 => some ((prev + 1) % M, bs)
  | 2 => (readLE 1 bs).map fun p => ((prev + p.1) % M, p.2)
  | 3 => (readLE 1 bs).map fun p => ((prev + (M - p.1 % M)) % M, p.2)
  | 4 => (readLE 2 bs).map fun p => ((prev + p.1) % M, p.2)
  | 5 => (readLE 2 bs).map fun p => ((prev + (M - p.1 % M)) % M, p.2)
  | 6 => readLE 2 bs
  | 7 => readLE 4 bs
  | _ => none

/-- The second `switch (hi & 7)` of `IDDB::unpack_file`, deciding the offset
value from the base `tmp`. The source duplicates the eight arms of the id
switch; this function mirrors that duplication verbatim. -/
def offSwitch (tmp k : Nat) (bs : List Nat) : Option (Nat × List Nat) :=
  match k with
  | 0 => readLE 8 bs
  | 1 => some ((tmp + 1) % M, bs)
  | 2 => (readLE 1 bs).map fun p => ((tmp + p.1) % M, p.2)
  | 3 => (readLE 1 bs).map fun p => ((tmp + (M - p.1 % M)) % M, p.2)
  | 4 => (readLE 2 bs).map fun p => ((tmp + p.1) % M, p.2)
  | 5 => (readLE 2 bs).map fun p => ((tmp + (M - p.1 % M)) % M, p.2)
  | 6 => readLE 2 bs
  | 7 => readLE 4 bs
  | _ => none

/-- One loop iteration of `IDDB::unpack_file` (`ptr` is
`a_header.pointer_size()`): read the control byte `type`, split it into
`lo = type & 0xF` and `hi = type >> 4` (for a byte, `x & 0xF = x % 16` and
`x >> 4 = x / 16 % 16`), decode the id by the first switch, compute
`tmp = (hi & 8) != 0 ? prevOffset / ptr : prevOffset` (for `hi < 16`,
`(hi & 8) != 0` is `8 ≤ hi` and `hi & 7` is `hi % 8`), decode the offset by the
second switch, and multiply by `ptr` when the scaled bit is set. Returns the
decoded `(id, offset)` pair and the remaining stream. -/
def decodeRecord (ptr prevId prevOffset : Nat) (bs : List Nat) :
    Option ((Nat × Nat) × List Nat) :=
  (readLE 1 bs).bind fun tb =>
    let lo := tb.1 % 16
    let hi := tb.1 / 16 % 16
    (idSwitch prevId lo tb.2).bind fun ib =>
      let tmp := if 8 ≤ hi then prevOffset / ptr else prevOffset
      (offSwitch tmp (hi % 8) ib.2).bind fun ob =>
        some ((ib.1, if 8 ≤ hi then ob.1 * ptr % M else ob.1), ob.2)

/-- One §4.2 delta rule as the spec words it: kind `k` applied to the base
value `prev` (0 = explicit fixed-width read, 1 = `prev + 1`, 2 = `prev + u8`,
3 = `prev − u8`, 4 = `prev + u16`, 5 = `prev − u16`, 6 = absolute `u16`,
7 = absolute `u32`); anything else is a malformed stream. The spec applies the
same rule table to ids and to offsets. -/
def applyDelta (k prev : Nat) (bs : List Nat) : Option (Nat × List Nat) :=
  match k with
  | 0 => readLE 8 bs
  | 1 => some ((prev + 1) % M, bs)
  | 2 => (readLE 1 bs).map fun p => ((prev + p.1) % M, p.2)
  | 3 => (readLE 1 bs).map fun p => ((prev + (M - p.1 % M)) % M, p.2)
  | 4 => (readLE 2 bs).map fun p => ((prev + p.1) % M, p.2)
  | 5 => (readLE 2 bs).map fun p => ((prev + (M - p.1 % M)) % M, p.2)
  | 6 => readLE 2 bs
  | 7 => readLE 4 bs
  | _ => none

/-- The delta codec for one record exactly as the spec states it: the low
control nibble selects the id rule, the low 3 bits of the high nibble apply
the same rules to a base value that is `prevOffset` normally, or
`prevOffset / ptr` when the high nibble's bit 3 is set, in which case the
decoded value is multiplied by `ptr` to give the final offset. -/
def specDecodeRecord (ptr prevId prevOffset : Nat) (bs : List Nat) :
    Option ((Nat × Nat) × List Nat) :=
  (readLE 1 bs).bind fun tb =>
    let lo := tb.1 % 16
    let hi := tb.1 / 16 % 16
    (applyDelta lo prevId tb.2).bind fun ib =>
      let tmp := if 8 ≤ hi then prevOffset / ptr else prevOffset
      (applyDelta (hi % 8) tmp ib.2).bind fun ob =>
        some ((ib.1, if 8 ≤ hi then ob.1 * ptr % M else ob.1), ob.2)

/-- The whole `unpack_file` loop: decode `count` records, threading
`prevID`/`prevOffset` through as the source does (`prevOffset = offset;
prevID = id;` after each record). -/
def decodeRecords (ptr : Nat) : Nat → Nat → Nat → List Nat →
    Option (List (Nat × Nat) × List Nat)
  | 0, _, _, bs => some ([], bs)
  | n + 1, prevId, prevOffset, bs =>
    (decodeRecord ptr prevId prevOffset bs).bind fun rb =>
      (decodeRecords ptr n rb.1.1 rb.1.2 rb.2).bind fun q =>
        some (rb.1 :: q.1, q.2)

/-- One choice of control nibbles for the encoder side of the round-trip
property: the id-delta kind, the offset-delta kind, and the pointer-scaled
flag (bit 3 of the high nibble). -/
structure Choice where
  idKind : Nat
  offKind : Nat
  scaled : Bool
deriving DecidableEq, Repr

/-- Encoder for one §4.2 delta rule: the payload bytes from which
`applyDelta k prev` recovers the target value `v`, or `none` when kind `k`
cannot represent `v` starting from `prev` (every stored value is a
`std::uint64_t`, so any representable target is `< M`). -/
def encodePayload (k prev v : Nat) : Option (List Nat) :=
  if v < M then
    match k with
    | 0 => some (toLE 8 v)
    | 1 => if v = prev + 1 then some [] else none
    | 2 => if prev ≤ v ∧ v - prev < 256 then some [v - prev] else none
    | 3 => if v ≤ prev ∧ prev - v < 256 then some [prev - v] else none
    | 4 => if prev ≤ v ∧ v - prev < 65536 then some (toLE 2 (v - prev)) else none
    | 5 => if v ≤ prev ∧ prev - v < 65536 then some (toLE 2 (prev - v)) else none
    | 6 => if v < 65536 then some (toLE 2 v) else none
    | 7 => if v < 4294967296 then some (toLE 4 v) else none
    | _ => none
  else none

/-- Encode one record per the §4.2 rules: a control byte
`idKind | (offKind | scaledBit) << 4` followed by the id payload and the
offset payload. When the scaled flag is chosen the stored value is
`off / ptr` (valid only when `ptr` divides `off`) computed relative to the
base `prevOffset / ptr`; otherwise the raw `off` relative to `prevOffset`. -/
def encodeRecord (ptr : Nat) (c : Choice) (prevId prevOffset idv off : Nat) :
    Option (List Nat) :=
  (encodePayload c.idKind prevId idv).bind fun pid =>
    if c.scaled then
      if ptr ∣ off ∧ off < M then
        (encodePayload c.offKind (prevOffset / ptr) (off / ptr)).bind fun poff =>
          some ((c.idKind + 16 * (c.offKind + 8)) :: (pid ++ poff))
      else none
    else
      (encodePayload c.offKind prevOffset off).bind fun poff =>
        some ((c.idKind + 16 * c.offKind) :: (pid ++ poff))

/-- Encode a record sequence: one nibble choice per record, state threaded
exactly as the decoder threads it. -/
def encodeRecords (ptr : Nat) : List Choice → List (Nat × Nat) → Nat → Nat →
    Option (List Nat)
  | [], [], _, _ => some []
  | c :: cs, r :: rs, prevId, prevOffset =>
    (encodeRecord ptr c prevId prevOffset r.1 r.2).bind fun b =>
      (encodeRecords ptr cs rs r.1 r.2).bind fun bt =>
        some (b ++ bt)
  | _, _, _, _ => none

/-- Embedding of `IDDB::offset`, sorted-array branch
(`std::to_underlying(m_format) < 5`):
after the `m_v0.empty()` check, `std::lower_bound` over the id-ascending store
returns the first record whose id is not less than the query (modelled as
`List.find?` of that predicate, which on the sorted store is what
`std::lower_bound` computes); the source fails only when the search hits
`m_v0.end()`, and otherwise returns that record's offset without comparing its
id to the query. -/
def offsetV0 (l : List MAPPING) (q : Nat) : Except Err Nat :=
  if l.isEmpty then .error .NoAddressLibrary
  else
    match l.find? fun m => decide (q ≤ m.id) with
    | none => .error (.IdNotFound q)
    | some m => .ok m.offset

/-- The dense (v5) record store: `m_v5` is a `std::span<std::uint32_t>` over
the mapped database file, and `m_v5[a_id]` performs no bounds check, so the
store is modelled as the underlying mapped memory `mem` (one value per index,
indices past `count` read whatever follows the record array) together with the
span's element count. -/
structure DenseStore where
  mem : Nat → Nat
  count : Nat

/-- Embedding of `IDDB::offset`, dense branch (format v5): the `m_v5.empty()` check, then
the unchecked read `m_v5[a_id]`; a zero value is the `IdNotFound` failure and
a nonzero value is returned unchanged. -/
def offsetV5 (s : DenseStore) (q : Nat) : Except Err Nat :=
  if s.count = 0 then .error .NoAddressLibrary
  else if s.mem q = 0 then .error (.IdNotFound q)
  else .ok (s.mem q)

/-- Embedding of `IDDB::Format` (the constructor `None` is the sentinel
`std::numeric_limits<std::int32_t>::max()`). -/
inductive Format where
  | CSV
  | None
  | V0
  | V1
  | V2
  | V5
deriving DecidableEq, Repr

/-- Value of `std::to_underlying` on `IDDB::Format`. -/
def Format.toUnderlying : Format → Int
  | .CSV => -100
  | .None => 2147483647
  | .V0 => 0
  | .V1 => 1
  | .V2 => 2
  | .V5 => 5

/-- The lookup-relevant state of an `IDDB` instance: the format tag and the
two possible record stores. -/
structure IDDBState where
  format : Format
  v0 : List MAPPING
  v5 : DenseStore

/-- Embedding of `IDDB::offset`: dispatch on `std::to_underlying(m_format) < 5` between the
sorted-array and dense-array lookups. -/
def offset (st : IDDBState) (q : Nat) : Except Err Nat :=
  if st.format.toUnderlying < 5 then offsetV0 st.v0 q else offsetV5 st.v5 q

/-- Insertion step of `sortById`. -/
def insertById (m : MAPPING) : List MAPPING → List MAPPING
  | [] => [m]
  | x :: xs => if m.id < x.id then m :: x :: xs else x :: insertById m xs

/-- Embedding of `std::sort(..., lhs.id < rhs.id)` as used by `load_v2` and `load_csv`:
sort the mappings into ascending id order. -/
def sortById : List MAPPING → List MAPPING
  | [] => []
  | x :: xs => insertById x (sortById xs)

/-- The fields of `IDDB::HEADER_V2` that `load_v2` consumes (the version is a
list of the four components; the name is not lookup-relevant). -/
structure HEADER_V2 where
  gameVersion : List Nat
  pointerSize : Nat
  addressCount : Nat

/-- Embedding of `IDDB::load_v2` after the header is parsed: the version gate
(`header.game_version() != mod->version()` is fatal `VersionMismatch`), then
the owner's `unpack_file` decode of `addressCount` records starting from
`prevID = prevOffset = 0`, then the sort by ascending id. The memory-map
creation and blacklist hash check are resource concerns outside this model;
the `REX::FAIL` default arm of the decode is `MalformedStream`. -/
def load_v2 (h : HEADER_V2) (modVersion : List Nat) (bs : List Nat) :
    Except Err (List MAPPING) :=
  if h.gameVersion ≠ modVersion then .error .VersionMismatch
  else
    match decodeRecords h.pointerSize h.addressCount 0 0 bs with
    | none => .error .MalformedStream
    | some (rs, _) => .ok (sortById (rs.map fun r => ⟨r.1, r.2⟩))

/-- The fields of `IDDB::HEADER_V5` that `load_v5` consumes. -/
structure HEADER_V5 where
  gameVersion : List Nat
  offsetCount : Nat

/-- Embedding of `IDDB::load_v5` after the header is parsed: the same version gate, then
the dense store is a direct view of the mapped file past the header. -/
def load_v5 (h : HEADER_V5) (modVersion : List Nat) (mem : Nat → Nat) :
    Except Err DenseStore :=
  if h.gameVersion ≠ modVersion then .error .VersionMismatch
  else .ok ⟨mem, h.offsetCount⟩

/-- The whitespace set of `load_csv`'s trimming
(`find_first_not_of(" \t\r\n")`). -/
def isWs (c : Char) : Bool :=
  c = ' ' || c = '\t' || c = '\r' || c = '\n'

/-- The leading/trailing erase pair `str.erase(0, find_first_not_of(...))`,
`str.erase(find_last_not_of(...) + 1)` of `load_csv`. -/
def trimChars (cs : List Char) : List Char :=
  ((cs.dropWhile isWs).reverse.dropWhile isWs).reverse

/-- Embedding of `line.find(',')` plus the two `substr` calls: split at the first comma, or
`none` when the line has no comma. -/
def splitFirstComma : List Char → Option (List Char × List Char)
  | [] => none
  | c :: cs =>
    if c = ',' then some ([], cs)
    else (splitFirstComma cs).map fun p => (c :: p.1, p.2)

/-- The C-locale `isspace` set that `strtoull` skips before the number:
space, `\t`, `\n`, `\v` (0x0b), `\f` (0x0c), `\r`. -/
def isSpaceC (c : Char) : Bool :=
  c = ' ' || c = '\t' || c = '\n' || c = '\x0b' || c = '\x0c' || c = '\r'

/-- Embedding of `std::stoull(s)` with its default base 10: skip leading
C-locale whitespace, an optional sign, then the longest decimal-digit prefix.
No digits raises `invalid_argument` and a magnitude beyond `ULLONG_MAX`
raises `out_of_range` (both `none` here, counted by the caller as an invalid
line); a `-` sign wraps modulo 2^64 as `strtoull` does. Note base 10 never
consumes a `0x` prefix: parsing stops at the `x`. -/
def stoullDec (cs : List Char) : Option Nat :=
  let cs1 := cs.dropWhile isSpaceC
  let signed : Bool × List Char :=
    match cs1 with
    | '-' :: rest => (true, rest)
    | '+' :: rest => (false, rest)
    | _ => (false, cs1)
  let digits := signed.2.takeWhile Char.isDigit
  if digits = [] then none
  else
    let v := digits.foldl (fun acc c => acc * 10 + (c.toNat - 48)) 0
    if M ≤ v then none
    else some (if signed.1 then (M - v) % M else v)

/-- The running state of `load_csv`'s line loop: the mappings built so far and
the valid/invalid/duplicate counters. -/
structure CsvState where
  mappings : List MAPPING
  valid : Nat
  invalid : Nat
  dup : Nat
deriving DecidableEq, Repr

/-- The state `load_csv` starts its data-line loop with. -/
def initCsvState : CsvState := ⟨[], 0, 0, 0⟩

/-- Embedding of `it->offset = offset` after `std::find_if`: overwrite the offset of the
first mapping carrying `idv`. -/
def updateFirst (idv offv : Nat) : List MAPPING → List MAPPING
  | [] => []
  | m :: ms =>
    if m.id = idv then ⟨m.id, offv⟩ :: ms else m :: updateFirst idv offv ms

/-- Step 3 of `IDDB::load_csv` for one data line: skip empty and `#` comment
lines; a missing comma, an empty trimmed field, or an unparsable number is an
invalid line (warned and skipped); a duplicate id overwrites the first match's
offset and bumps the duplicate counter; otherwise the mapping is appended and
the valid counter bumps. -/
def processDataLine (st : CsvState) (line : String) : CsvState :=
  match line.toList with
  | [] => st
  | c :: cs =>
    if c = '#' then st
    else
      match splitFirstComma (c :: cs) with
      | none => { st with invalid := st.invalid + 1 }
      | some p =>
        let idT := trimChars p.1
        let offT := trimChars p.2
        if idT = [] ∨ offT = [] then { st with invalid := st.invalid + 1 }
        else
          match stoullDec idT, stoullDec offT with
          | some idv, some offv =>
            if st.mappings.any fun m => m.id == idv then
              { st with
                mappings := updateFirst idv offv st.mappings
                dup := st.dup + 1 }
            else
              { st with
                mappings := st.mappings ++ [⟨idv, offv⟩]
                valid := st.valid + 1 }
          | _, _ => { st with invalid := st.invalid + 1 }

/-- The whole data-line loop of `load_csv`. -/
def processDataLines (lines : List String) : CsvState :=
  lines.foldl processDataLine initCsvState

/-- Embedding of `IDDB::load_csv` as a whole. The `STREAM` constructor sets
`exceptions(badbit | failbit | eofbit)` on the underlying `std::ifstream`, and
`load_csv` reads it with `std::getline`, so the line loop can never exit
normally: the `getline` that reaches end-of-file sets `eofbit` (and, for a
final empty read, `failbit`) and therefore throws `std::ios_base::failure` — a
`std::system_error` — which the catch at the bottom of `load_csv` converts to
`REX::FAIL("Failed to open CSV Address Library file!")`, the taxonomy's
`FileNotOpenable`. The header skip, the metadata parse (logging only: neither
its count nor its version label is compared with the live version) and the
data-line loop body all run first — `processDataLines` is that loop state —
but the empty-mapping check (`EmptyDatabase`), the sort and the shared-map
copy after the loop are unreachable, so the load aborts with the same error
for every input. -/
def load_csv (lines : List String) : Except Err (List MAPPING) :=
  let _ := processDataLines (lines.drop 2)
  .error .FileNotOpenable

end IDDB

namespace REL

/-- Embedding of `REL::detail::RelocationIDImpl<N>`: the fixed-size candidate-id array
`m_ids` (here a list of length N). -/
structure RelocationID where
  ids : List Nat
deriving DecidableEq, Repr

/-- Embedding of `resolve_fallback`: scan `m_ids` in order and return the first nonzero id,
or 0 when every slot is zero. -/
def resolveFallback (r : RelocationID) : Nat :=
  match r.ids.find? fun v => decide (v ≠ 0) with
  | some v => v
  | none => 0

/-- Embedding of `resolve_fallback_for_runtime`: fall back to the primary slot
(`a_runtime_index > 0 && m_ids[0] != 0`), else the first-nonzero scan. -/
def resolveFallbackForRuntime (r : RelocationID) (idx : Nat) : Nat :=
  if 0 < idx ∧ r.ids.getD 0 0 ≠ 0 then r.ids.getD 0 0
  else resolveFallback r

/-- Embedding of `resolve_id`: an out-of-range index goes to `resolve_fallback`; an
in-range nonzero slot wins; an in-range zero slot goes to
`resolve_fallback_for_runtime`. -/
def resolveId (r : RelocationID) (idx : Nat) : Nat :=
  if r.ids.length ≤ idx then resolveFallback r
  else if r.ids.getD idx 0 = 0 then resolveFallbackForRuntime r idx
  else r.ids.getD idx 0

/-- The `RelocationIDImpl(std::uint64_t, std::uint64_t)` constructor
instantiated at N = 3 (`requires(N == 3 || N == 4)`): `m_ids[0] = a_primary`,
`m_ids[1] = a_secondary`, and `m_ids[2] = 0` — the third slot is set to the
literal zero, with the source comment that variant 2 "will fall back to
primary via fallback logic". -/
def mkPrimarySecondary (primary secondary : Nat) : RelocationID :=
  ⟨[primary, secondary, 0]⟩

end REL

namespace IDDB

theorem idSwitch_eq_applyDelta (prev lo : Nat) (bs : List Nat) :
    idSwitch prev lo bs = applyDelta lo prev bs :=
  match lo with
  | 0 => rfl
  | 1 => rfl
  | 2 => rfl
  | 3 => rfl
  | 4 => rfl
  | 5 => rfl
  | 6 => rfl
  | 7 => rfl
  | _ + 8 => rfl

theorem offSwitch_eq_applyDelta (tmp k : Nat) (bs : List Nat) :
    offSwitch tmp k bs = applyDelta k tmp bs :=
  match k with
  | 0 => rfl
  | 1 => rfl
  | 2 => rfl
  | 3 => rfl
  | 4 => rfl
  | 5 => rfl
  | 6 => rfl
  | 7 => rfl
  | _ + 8 => rfl

theorem decodeRecord_eq_spec (ptr prevId prevOffset : Nat) (bs : List Nat) :
    decodeRecord ptr prevId prevOffset bs = specDecodeRecord ptr prevId prevOffset bs := by
  unfold decodeRecord specDecodeRecord
  simp only [idSwitch_eq_applyDelta, offSwitch_eq_applyDelta]

theorem hM_val : M = 18446744073709551616 := by norm_num [M]

theorem readLE_one (b : Nat) (bs : List Nat) : readLE 1 (b :: bs) = some (b, bs) := by
  simp [readLE]

theorem readLE_toLE (n v : Nat) (rest : List Nat) (hv : v < 256 ^ n) :
    readLE n (toLE n v ++ rest) = some (v, rest) := by
  induction n generalizing v rest with
  | zero =>
    have hv0 : v = 0 := by simpa using hv
    subst hv0
    rfl
  | succ n ih =>
    have h2 : v / 256 < 256 ^ n := by
      apply Nat.div_lt_of_lt_mul
      calc v < 256 ^ (n + 1) := hv
        _ = 256 * 256 ^ n := by ring
    simp [toLE, readLE, ih (v / 256) rest h2]
    omega

theorem encodePayload_kind_lt (k prev v : Nat) (pl : List Nat)
    (h : encodePayload k prev v = some pl) : k < 8 := by
  unfold encodePayload at h
  by_cases hv : v < M
  · simp only [if_pos hv] at h
    rcases k with _|_|_|_|_|_|_|_|n
    all_goals first
      | omega
      | simp at h
  · simp [hv] at h

theorem applyDelta_encodePayload (k prev v : Nat) (pl rest : List Nat)
    (hprev : prev < M) (henc : encodePayload k prev v = some pl) :
    applyDelta k prev (pl ++ rest) = some (v, rest) ∧ v < M := by
  have hM := hM_val
  unfold encodePayload at henc
  by_cases hv : v < M
  · simp only [if_pos hv] at henc
    refine ⟨?_, hv⟩
    rcases k with _|_|_|_|_|_|_|_|n
    · -- kind 0: explicit 8-byte read
      have hpl : pl = toLE 8 v := by simpa using henc.symm
      subst hpl
      have h8 : v < 256 ^ 8 := by
        have h256 : (256 : Nat) ^ 8 = M := by norm_num [M]
        rw [h256]; exact hv
      simpa [applyDelta] using readLE_toLE 8 v rest h8
    · -- kind 1: prev + 1
      rcases Decidable.em (v = prev + 1) with h1 | h1
      · simp only [if_pos h1] at henc
        have hpl : pl = [] := by simpa using henc.symm
        subst hpl
        simp [applyDelta, hM]
        omega
      · simp [if_neg h1] at henc
    · -- kind 2: prev + u8
      rcases Decidable.em (prev ≤ v ∧ v - prev < 256) with h1 | h1
      · simp only [if_pos h1] at henc
        have hpl : pl = [v - prev] := by simpa using henc.symm
        subst hpl
        simp [applyDelta, readLE, hM]
        omega
      · simp [if_neg h1] at henc
    · -- kind 3: prev − u8
      rcases Decidable.em (v ≤ prev ∧ prev - v < 256) with h1 | h1
      · simp only [if_pos h1] at henc
        have hpl : pl = [prev - v] := by simpa using henc.symm
        subst hpl
        simp [applyDelta, readLE, hM]
        omega
      · simp [if_neg h1] at henc
    · -- kind 4: prev + u16
      rcases Decidable.em (prev ≤ v ∧ v - prev < 65536) with h1 | h1
      · simp only [if_pos h1] at henc
        have hpl : pl = toLE 2 (v - prev) := by simpa using henc.symm
        subst hpl
        have hrd := readLE_toLE 2 (v - prev) rest (by norm_num; omega)
        simp [applyDelta, hrd, hM]
        omega
      · simp [if_neg h1] at henc
    · -- kind 5: prev − u16
      rcases Decidable.em (v ≤ prev ∧ prev - v < 65536) with h1 | h1
      · simp only [if_pos h1] at henc
        have hpl : pl = toLE 2 (prev - v) := by simpa using henc.symm
        subst hpl
        have hrd := readLE_toLE 2 (prev - v) rest (by norm_num; omega)
        simp [applyDelta, hrd, hM]
        omega
      · simp [if_neg h1] at henc
    · -- kind 6: absolute u16
      rcases Decidable.em (v < 65536) with h1 | h1
      · simp only [if_pos h1] at henc
        have hpl : pl = toLE 2 v := by simpa using henc.symm
        subst hpl
        simpa [applyDelta] using readLE_toLE 2 v rest (by norm_num; omega)
      · simp [if_neg h1] at henc
    · -- kind 7: absolute u32
      rcases Decidable.em (v < 4294967296) with h1 | h1
      · simp only [if_pos h1] at henc
        have hpl : pl = toLE 4 v := by simpa using henc.symm
        subst hpl
        simpa [applyDelta] using readLE_toLE 4 v rest (by norm_num; omega)
      · simp [if_neg h1] at henc
    · simp at henc
  · simp [hv] at henc

theorem decodeRecord_encodeRecord (ptr : Nat) (c : Choice)
    (prevId prevOffset idv off : Nat) (bs rest : List Nat)
    (hpid : prevId < M) (hpoff : prevOffset < M)
    (henc : encodeRecord ptr c prevId prevOffset idv off = some bs) :
    decodeRecord ptr prevId prevOffset (bs ++ rest) = some ((idv, off), rest) ∧
      idv < M ∧ off < M := by
  have hM := hM_val
  rw [decodeRecord_eq_spec]
  unfold encodeRecord at henc
  cases hpe : encodePayload c.idKind prevId idv with
  | none => rw [hpe] at henc; simp at henc
  | some pid =>
    rw [hpe] at henc
    simp only [Option.some_bind] at henc
    have hidk : c.idKind < 8 := encodePayload_kind_lt _ _ _ _ hpe
    cases hcs : c.scaled with
    | false =>
      rw [hcs] at henc
      simp only [Bool.false_eq_true, if_false] at henc
      cases hoe : encodePayload c.offKind prevOffset off with
      | none => rw [hoe] at henc; simp at henc
      | some poff =>
        rw [hoe] at henc
        simp only [Option.some_bind, Option.some.injEq] at henc
        subst henc
        have hoffk : c.offKind < 8 := encodePayload_kind_lt _ _ _ _ hoe
        obtain ⟨hid, hidlt⟩ :=
          applyDelta_encodePayload c.idKind prevId idv pid (poff ++ rest) hpid hpe
        obtain ⟨hoff, hofflt⟩ :=
          applyDelta_encodePayload c.offKind prevOffset off poff rest hpoff hoe
        refine ⟨?_, hidlt, hofflt⟩
        have hlo : (c.idKind + 16 * c.offKind) % 16 = c.idKind := by omega
        have hhi : (c.idKind + 16 * c.offKind) / 16 % 16 = c.offKind := by omega
        have hnotsc : ¬ (8 ≤ c.offKind) := by omega
        have hmod : c.offKind % 8 = c.offKind := by omega
        unfold specDecodeRecord
        simp only [List.cons_append, readLE_one, Option.some_bind, hlo, hhi,
          List.append_assoc, hid, hnotsc, if_false, hmod, hoff]
    | true =>
      rw [hcs] at henc
      simp only [if_true] at henc
      rcases Decidable.em (ptr ∣ off ∧ off < M) with hcond | hcond
      · rw [if_pos hcond] at henc
        cases hoe : encodePayload c.offKind (prevOffset / ptr) (off / ptr) with
        | none => rw [hoe] at henc; simp at henc
        | some poff =>
          rw [hoe] at henc
          simp only [Option.some_bind, Option.some.injEq] at henc
          subst henc
          have hoffk : c.offKind < 8 := encodePayload_kind_lt _ _ _ _ hoe
          have hbase : prevOffset / ptr < M :=
            Nat.lt_of_le_of_lt (Nat.div_le_self _ _) hpoff
          obtain ⟨hid, hidlt⟩ :=
            applyDelta_encodePayload c.idKind prevId idv pid (poff ++ rest) hpid hpe
          obtain ⟨hoff, hvlt⟩ :=
            applyDelta_encodePayload c.offKind (prevOffset / ptr) (off / ptr) poff rest
              hbase hoe
          refine ⟨?_, hidlt, hcond.2⟩
          have hlo : (c.idKind + 16 * (c.offKind + 8)) % 16 = c.idKind := by omega
          have hhi : (c.idKind + 16 * (c.offKind + 8)) / 16 % 16 = c.offKind + 8 := by
            omega
          have hsc : 8 ≤ c.offKind + 8 := by omega
          have hmod : (c.offKind + 8) % 8 = c.offKind := by omega
          have hcancel : off / ptr * ptr % M = off := by
            rw [Nat.div_mul_cancel hcond.1]
            exact Nat.mod_eq_of_lt hcond.2
          unfold specDecodeRecord
          simp only [List.cons_append, readLE_one, Option.some_bind, hlo, hhi,
            List.append_assoc, hid, hsc, if_true, hmod, hoff, hcancel]
      · rw [if_neg hcond] at henc
        simp at henc

theorem decodeRecords_encodeRecords (ptr : Nat) (cs : List Choice)
    (rs : List (Nat × Nat)) (prevId prevOffset : Nat) (bs rest : List Nat)
    (hpid : prevId < M) (hpoff : prevOffset < M)
    (henc : encodeRecords ptr cs rs prevId prevOffset = some bs) :
    decodeRecords ptr rs.length prevId prevOffset (bs ++ rest) = some (rs, rest) := by
  induction cs generalizing rs prevId prevOffset bs with
  | nil =>
    cases rs with
    | nil =>
      have hbs : bs = [] := by simpa [encodeRecords] using henc.symm
      subst hbs
      rfl
    | cons r rs => simp [encodeRecords] at henc
  | cons c cs ih =>
    cases rs with
    | nil => simp [encodeRecords] at henc
    | cons r rs =>
      unfold encodeRecords at henc
      cases h1 : encodeRecord ptr c prevId prevOffset r.1 r.2 with
      | none => rw [h1] at henc; simp at henc
      | some b =>
        rw [h1] at henc
        simp only [Option.some_bind] at henc
        cases h2 : encodeRecords ptr cs rs r.1 r.2 with
        | none => rw [h2] at henc; simp at henc
        | some bt =>
          rw [h2] at henc
          simp only [Option.some_bind, Option.some.injEq] at henc
          subst henc
          obtain ⟨hdec, hrid, hroff⟩ :=
            decodeRecord_encodeRecord ptr c prevId prevOffset r.1 r.2 b (bt ++ rest)
              hpid hpoff h1
          have hrec := ih rs r.1 r.2 bt hrid hroff h2
          show decodeRecords ptr (rs.length + 1) prevId prevOffset
            ((b ++ bt) ++ rest) = some (r :: rs, rest)
          unfold decodeRecords
          rw [List.append_assoc, hdec]
          simp only [Option.some_bind, hrec, Option.some_bind]

theorem find?_lowerBound_of_mem (l : List MAPPING) (q : Nat) (m : MAPPING)
    (hs : l.Pairwise fun a b => a.id < b.id) (hm : m ∈ l) (hq : m.id = q) :
    (l.find? fun x => decide (q ≤ x.id)) = some m := by
  induction l with
  | nil => cases hm
  | cons h t ih =>
    rcases List.mem_cons.mp hm with rfl | hmt
    · have htrue : decide (q ≤ m.id) = true := by simp [hq]
      simp [List.find?, htrue]
    · have hlt : h.id < m.id := (List.pairwise_cons.mp hs).1 m hmt
      have hfalse : decide (q ≤ h.id) = false := by
        simp only [decide_eq_false_iff_not]
        omega
      simp only [List.find?, hfalse]
      exact ih (List.pairwise_cons.mp hs).2 hmt

/-- Claim C1 (counterexample): in the store `[\x7bid 10, offset 42\x7d]` the id 5 is
not present, yet the sorted-array lookup returns `ok 42` — the offset of the
record with id 10 — instead of failing with `IdNotFound`, because the source
never compares the record found by `std::lower_bound` with the queried id. -/
theorem offsetV0_returns_successor_offset :
    (∀ m ∈ [MAPPING.mk 10 42], m.id ≠ 5) ∧
    offsetV0 [MAPPING.mk 10 42] 5 = .ok 42 :=
  ⟨by decide, rfl⟩

/-- Claim C1 (amended): over a store with strictly ascending ids, `offset(id)`
returns the stored offset for every id present; an id greater than every
stored id fails with `IdNotFound`; but any other absent id silently returns
the offset of the smallest record whose id exceeds the query (the non-exact
match is not checked). -/
theorem offsetV0_lookup_amended (l : List MAPPING) (q : Nat)
    (hs : l.Pairwise fun a b => a.id < b.id) :
    (∀ m ∈ l, m.id = q → offsetV0 l q = .ok m.offset) ∧
    ((l ≠ [] ∧ ∀ m ∈ l, m.id < q) → offsetV0 l q = .error (.IdNotFound q)) ∧
    (∀ m : MAPPING, (l.find? fun x => decide (q ≤ x.id)) = some m →
      offsetV0 l q = .ok m.offset) := by
  refine ⟨fun m hm hq => ?_, fun hall => ?_, fun m hfind => ?_⟩
  · cases l with
    | nil => cases hm
    | cons h t =>
      have hfind := find?_lowerBound_of_mem (h :: t) q m hs hm hq
      simp [offsetV0, hfind]
  · obtain ⟨hne, hlt⟩ := hall
    have hfind : (l.find? fun x => decide (q ≤ x.id)) = none := by
      rw [List.find?_eq_none]
      intro x hx
      have := hlt x hx
      simp only [decide_eq_true_eq]
      omega
    cases l with
    | nil => exact absurd rfl hne
    | cons h t => simp [offsetV0, hfind]
  · cases l with
    | nil => simp [List.find?] at hfind
    | cons h t => simp [offsetV0, hfind]

/-- Witness for claim C1's amended theorem at a concrete sorted store. -/
theorem offsetV0_lookup_amended_witness :
    offsetV0 [MAPPING.mk 3 7, MAPPING.mk 10 42] 10 = .ok 42 :=
  (offsetV0_lookup_amended [MAPPING.mk 3 7, MAPPING.mk 10 42] 10
    (by decide)).1 (MAPPING.mk 10 42) (by decide) rfl

/-- Claim C4 (counterexample): a dense store of count 1 whose underlying
mapped memory happens to hold 7 at index 5; the query 5 is out of the array
bounds, yet the lookup returns `ok 7` read from past the array instead of
failing with `IdNotFound`, because `m_v5[a_id]` is an unchecked span read. -/
theorem offsetV5_out_of_range_reads_memory :
    (DenseStore.mk (fun i => if i = 5 then 7 else 0) 1).count ≤ 5 ∧
    offsetV5 (DenseStore.mk (fun i => if i = 5 then 7 else 0) 1) 5 = .ok 7 :=
  ⟨by decide, rfl⟩

/-- Claim C4 (amended): on a non-empty dense store, `offset(id)` fails with
`IdNotFound` exactly when the value read at position `id` is zero and returns
it unchanged otherwise — for every id, in or out of the array bounds, since
the read is unchecked; an out-of-range id is treated as absent only when the
memory past the array happens to hold zero. -/
theorem offsetV5_lookup_amended (s : DenseStore) (q : Nat) (hne : s.count ≠ 0) :
    (s.mem q = 0 → offsetV5 s q = .error (.IdNotFound q)) ∧
    (s.mem q ≠ 0 → offsetV5 s q = .ok (s.mem q)) := by
  constructor <;> intro h <;> simp [offsetV5, hne, h]

/-- Witness for claim C4's amended theorem. -/
theorem offsetV5_lookup_amended_witness :
    offsetV5 (DenseStore.mk (fun _ => 0) 3) 1 = .error (.IdNotFound 1) :=
  (offsetV5_lookup_amended (DenseStore.mk (fun _ => 0) 3) 1 (by decide)).1 rfl

/-- Claim C10: with no database loaded (both record stores empty),
`offset(id)` fails with the "No Address Library has been loaded" error for
every queried id on both the sorted-array dispatch branch and the dense-array
dispatch branch, before attempting any lookup. -/
theorem offset_empty_store_fails (st : IDDBState) (q : Nat)
    (h0 : st.v0 = []) (h5 : st.v5.count = 0) :
    offset st q = .error .NoAddressLibrary := by
  unfold offset
  split
  · simp [offsetV0, h0]
  · simp [offsetV5, h5]

/-- Witness for claim C10 on a freshly constructed state. -/
theorem offset_empty_store_fails_witness :
    offset ⟨Format.None, [], ⟨fun _ => 0, 0⟩⟩ 7 = .error .NoAddressLibrary :=
  offset_empty_store_fails ⟨Format.None, [], ⟨fun _ => 0, 0⟩⟩ 7 rfl rfl

/-- Claim C5 (counterexample): on the CSV load path, a file whose metadata
version label is "9.9.9" — mismatched against any live target version —
fails with the catch-block's stream error (`FileNotOpenable`), not with
`VersionMismatch`: `load_csv` never receives or consults the module version
at all, so the mismatch is never detected or reported as such. -/
theorem load_csv_never_version_mismatch :
    load_csv ["id,offset", "1,9.9.9", "5,16"] = .error .FileNotOpenable ∧
    Err.FileNotOpenable ≠ Err.VersionMismatch :=
  ⟨rfl, by decide⟩

/-- Claim C5 (amended): a version mismatch is fatal with `VersionMismatch` on
the binary v2 and v5 load paths, which read a version header; the CSV load
path parses its metadata version label only for logging and never compares it
with the live target version — because of the `eofbit`/`failbit` exception
mask on its stream it always aborts with the stream-failure error
(`FileNotOpenable`), never with `VersionMismatch`, whatever the input. -/
theorem version_mismatch_fatal_amended :
    (∀ (h : HEADER_V2) (modv : List Nat) (bs : List Nat), h.gameVersion ≠ modv →
      load_v2 h modv bs = .error .VersionMismatch) ∧
    (∀ (h : HEADER_V5) (modv : List Nat) (mem : Nat → Nat), h.gameVersion ≠ modv →
      load_v5 h modv mem = .error .VersionMismatch) ∧
    (∀ lines : List String, load_csv lines = .error .FileNotOpenable) := by
  refine ⟨fun h modv bs hne => ?_, fun h modv mem hne => ?_, fun lines => rfl⟩
  · simp [load_v2, hne]
  · simp [load_v5, hne]

/-- Witness for claim C5's amended theorem at a concrete mismatched header. -/
theorem version_mismatch_fatal_amended_witness :
    load_v2 ⟨[1, 0, 0, 0], 8, 0⟩ [2, 0, 0, 0] [] = .error .VersionMismatch :=
  version_mismatch_fatal_amended.1 ⟨[1, 0, 0, 0], 8, 0⟩ [2, 0, 0, 0] [] (by decide)

/-- Claim C7: evaluating the CSV loader at the claim's own input. The loop
state after the lines "5,0x10" then "5,0x20" does hit the duplicate path (the
duplicate counter ends at 1 and the later occurrence's parsed offset wins),
but both offsets parse as 0 — `std::stoull` defaults to base 10 and stops at
the `x` — so the in-loop record for id 5 holds offset 0, not 0x20, although
the repository's own ARCHITECTURE.md documents hex offsets (`12345,0x1A2B3C`)
as the CSV format. And the load as a whole never produces a "resulting
record" at all: the stream's exception mask makes the line loop end in a
thrown `ios_base::failure`, so `load_csv` aborts with the stream error. -/
theorem csv_hex_offsets_parse_as_zero :
    (processDataLines ["5,0x10", "5,0x20"]).mappings = [MAPPING.mk 5 0] ∧
    (processDataLines ["5,0x10", "5,0x20"]).dup = 1 ∧
    load_csv ["id,offset", "2,1.0.0", "5,0x10", "5,0x20"] = .error .FileNotOpenable :=
  ⟨rfl, rfl, rfl⟩

/-- Claim C2: `unpack_file`'s two inline switch statements implement exactly
the nibble rules of §4.2 — the low control nibble selects the id rule
(0 = explicit fixed-width id, 1 = prevId+1, 2 = prevId+u8, 3 = prevId−u8,
4 = prevId+u16, 5 = prevId−u16, 6 = absolute u16, 7 = absolute u32), the low
3 bits of the high nibble apply the same rule table to a base of `prevOffset`,
or `prevOffset / pointerSize` with a final multiply by `pointerSize` when the
high nibble's bit 3 is set — and the loop threads the decoded pair as the new
`prevID`/`prevOffset` into the next record. -/
theorem decode_matches_nibble_rules :
    (∀ (ptr prevId prevOffset : Nat) (bs : List Nat),
      decodeRecord ptr prevId prevOffset bs =
        specDecodeRecord ptr prevId prevOffset bs) ∧
    (∀ (ptr n prevId prevOffset : Nat) (bs : List Nat),
      decodeRecords ptr (n + 1) prevId prevOffset bs =
        (decodeRecord ptr prevId prevOffset bs).bind fun rb =>
          (decodeRecords ptr n rb.1.1 rb.1.2 rb.2).bind fun q =>
            some (rb.1 :: q.1, q.2)) :=
  ⟨decodeRecord_eq_spec, fun _ _ _ _ _ => rfl⟩

/-- Claim C6: round-trip — a record sequence encoded with any valid choice of
§4.2 control nibbles (pointer-scaled offsets included) decodes back to exactly
the original (id, offset) sequence, leaving the rest of the stream intact. -/
theorem delta_roundtrip (ptr : Nat) (cs : List Choice) (rs : List (Nat × Nat))
    (prevId prevOffset : Nat) (bs rest : List Nat)
    (hpid : prevId < M) (hpoff : prevOffset < M)
    (henc : encodeRecords ptr cs rs prevId prevOffset = some bs) :
    decodeRecords ptr rs.length prevId prevOffset (bs ++ rest) = some (rs, rest) :=
  decodeRecords_encodeRecords ptr cs rs prevId prevOffset bs rest hpid hpoff henc

/-- Witness for claim C6: a concrete two-record stream, the second record
using the `prevId+1` id rule and a pointer-scaled `base+u8` offset rule. -/
theorem delta_roundtrip_witness :
    encodeRecords 8 [⟨7, 7, false⟩, ⟨1, 2, true⟩] [(256, 64), (257, 72)] 0 0 =
      some [119, 0, 1, 0, 0, 64, 0, 0, 0, 161, 1] ∧
    decodeRecords 8 2 0 0 ([119, 0, 1, 0, 0, 64, 0, 0, 0, 161, 1] ++ [9]) =
      some ([(256, 64), (257, 72)], [9]) :=
  ⟨by decide,
    delta_roundtrip 8 [⟨7, 7, false⟩, ⟨1, 2, true⟩] [(256, 64), (257, 72)] 0 0
      [119, 0, 1, 0, 0, 64, 0, 0, 0, 161, 1] [9]
      (by decide) (by decide) (by decide)⟩

end IDDB

namespace REL

theorem getD_eq_get (l : List Nat) (n : Nat) (h : n < l.length) :
    l.getD n 0 = l.get ⟨n, h⟩ := by
  induction l generalizing n with
  | nil => simp at h
  | cons a t ih =>
    cases n with
    | zero => rfl
    | succ n => exact ih n (by simpa using h)

theorem getD_mem (l : List Nat) (n : Nat) (h : n < l.length) : l.getD n 0 ∈ l := by
  rw [getD_eq_get l n h]
  exact l.get_mem n h

theorem getD_zero_mem (l : List Nat) (h : l ≠ []) : l.getD 0 0 ∈ l := by
  cases l with
  | nil => exact absurd rfl h
  | cons a t => exact List.mem_cons_self a t

theorem resolveFallback_zero_or_mem (r : RelocationID) :
    resolveFallback r = 0 ∨ resolveFallback r ∈ r.ids := by
  unfold resolveFallback
  cases hf : r.ids.find? fun v => decide (v ≠ 0) with
  | none => exact Or.inl rfl
  | some v => exact Or.inr (List.mem_of_find?_eq_some hf)

theorem resolveFallback_eq_zero_iff (r : RelocationID) :
    resolveFallback r = 0 ↔ ∀ v ∈ r.ids, v = 0 := by
  unfold resolveFallback
  cases hf : r.ids.find? fun v => decide (v ≠ 0) with
  | none =>
    simp only [List.find?_eq_none, decide_eq_true_eq, ne_eq, not_not] at hf
    exact ⟨fun _ => hf, fun _ => rfl⟩
  | some v =>
    have hv : v ≠ 0 := by simpa using List.find?_some hf
    have hmem := List.mem_of_find?_eq_some hf
    exact ⟨fun h => absurd h hv, fun hall => absurd (hall v hmem) hv⟩

theorem resolveFallbackForRuntime_zero_or_mem (r : RelocationID) (idx : Nat) :
    resolveFallbackForRuntime r idx = 0 ∨ resolveFallbackForRuntime r idx ∈ r.ids := by
  unfold resolveFallbackForRuntime
  split
  · next hcond =>
    exact Or.inr (getD_zero_mem r.ids fun hnil => hcond.2 (by simp [hnil]))
  · exact resolveFallback_zero_or_mem r

theorem resolveFallbackForRuntime_eq_zero_iff (r : RelocationID) (idx : Nat) :
    resolveFallbackForRuntime r idx = 0 ↔ ∀ v ∈ r.ids, v = 0 := by
  unfold resolveFallbackForRuntime
  split
  · next hcond =>
    have hmem : r.ids.getD 0 0 ∈ r.ids :=
      getD_zero_mem r.ids fun hnil => hcond.2 (by simp [hnil])
    exact ⟨fun h => absurd h hcond.2, fun hall => absurd (hall _ hmem) hcond.2⟩
  · exact resolveFallback_eq_zero_iff r

/-- Claim C3: `resolve_id` follows the fallback algorithm for every candidate
set and index — an in-range nonzero slot resolves to itself; a zero slot falls
back to slot 0 when that is nonzero, else to the first-nonzero scan; an
out-of-range index uses the global fallback; an all-zero set scans to 0 — and
the three concrete examples of the spec hold. -/
theorem resolveId_fallback_spec (r : RelocationID) (idx : Nat) :
    (∀ h : idx < r.ids.length, r.ids.get ⟨idx, h⟩ ≠ 0 →
      resolveId r idx = r.ids.get ⟨idx, h⟩) ∧
    (∀ h : idx < r.ids.length, r.ids.get ⟨idx, h⟩ = 0 → r.ids.getD 0 0 ≠ 0 →
      resolveId r idx = r.ids.getD 0 0) ∧
    (∀ h : idx < r.ids.length, r.ids.get ⟨idx, h⟩ = 0 → r.ids.getD 0 0 = 0 →
      resolveId r idx = resolveFallback r) ∧
    (r.ids.length ≤ idx → resolveId r idx = resolveFallback r) ∧
    ((∀ v ∈ r.ids, v = 0) → resolveFallback r = 0) ∧
    resolveId ⟨[0x100, 0x200, 0]⟩ 2 = 0x100 ∧
    resolveId ⟨[0, 0x200, 0]⟩ 0 = 0x200 ∧
    (∀ i : Nat, resolveId ⟨[0, 0, 0]⟩ i = 0) := by
  refine ⟨fun h hne => ?_, fun h h0 hp => ?_, fun h h0 hp0 => ?_, fun hlen => ?_,
    fun hall => (resolveFallback_eq_zero_iff r).mpr hall, by decide, by decide,
    fun i => ?_⟩
  · have hlt : ¬ r.ids.length ≤ idx := by omega
    unfold resolveId
    rw [if_neg hlt, getD_eq_get r.ids idx h, if_neg hne]
  · have hlt : ¬ r.ids.length ≤ idx := by omega
    unfold resolveId
    rw [if_neg hlt, getD_eq_get r.ids idx h, if_pos h0]
    unfold resolveFallbackForRuntime
    rcases Nat.eq_zero_or_pos idx with rfl | hpos
    · exact absurd (by rw [getD_eq_get r.ids 0 h]; exact h0) hp
    · rw [if_pos ⟨hpos, hp⟩]
  · have hlt : ¬ r.ids.length ≤ idx := by omega
    unfold resolveId
    rw [if_neg hlt, getD_eq_get r.ids idx h, if_pos h0]
    unfold resolveFallbackForRuntime
    rw [if_neg fun hcond => hcond.2 hp0]
  · unfold resolveId
    rw [if_pos hlen]
  · by_cases h3 : 3 ≤ i
    · unfold resolveId
      rw [if_pos (by simpa using h3)]
      decide
    · have : i < 3 := by omega
      interval_cases i <;> decide

/-- Witness for claim C3 at a concrete set and in-range index. -/
theorem resolveId_fallback_spec_witness :
    resolveId ⟨[3, 0, 9]⟩ 0 = 3 :=
  (resolveId_fallback_spec ⟨[3, 0, 9]⟩ 0).1 (by decide) (by decide)

/-- Claim C9: `resolve_id` never fabricates an id — its result is zero or one
of the set's stored slots — and it is zero exactly when every slot is zero. -/
theorem resolveId_zero_or_member (r : RelocationID) (idx : Nat) :
    (resolveId r idx = 0 ∨ resolveId r idx ∈ r.ids) ∧
    (resolveId r idx = 0 ↔ ∀ v ∈ r.ids, v = 0) := by
  unfold resolveId
  split
  · exact ⟨resolveFallback_zero_or_mem r, resolveFallback_eq_zero_iff r⟩
  · next hlen =>
    have hidx : idx < r.ids.length := by omega
    by_cases hc : r.ids.getD idx 0 = 0
    · rw [if_pos hc]
      exact ⟨resolveFallbackForRuntime_zero_or_mem r idx,
        resolveFallbackForRuntime_eq_zero_iff r idx⟩
    · rw [if_neg hc]
      exact ⟨Or.inr (getD_mem r.ids idx hidx),
        fun h => absurd h hc, fun hall => absurd (hall _ (getD_mem r.ids idx hidx)) hc⟩

/-- Claim C8 (counterexample): `mkPrimarySecondary 5 7` stores 0 in slot 2
while slot 0 holds 5 — the constructor does not set slot 2 equal to slot 0. -/
theorem mkPrimarySecondary_slot2_is_zero :
    (mkPrimarySecondary 5 7).ids.getD 2 0 = 0 ∧
    (mkPrimarySecondary 5 7).ids.getD 0 0 = 5 ∧ (0 : Nat) ≠ 5 := by
  decide

/-- Claim C8 (amended): the two-argument constructor of a 3-slot candidate set
stores `\x7bprimary, secondary, 0\x7d` — slot 2 is the literal zero, not a copy of
slot 0 — so that resolution at variant index 2 goes through the fallback
logic, which reuses variant 0's id whenever slot 0 is nonzero. -/
theorem mkPrimarySecondary_amended (p s : Nat) :
    (mkPrimarySecondary p s).ids = [p, s, 0] ∧
    (p ≠ 0 → resolveId (mkPrimarySecondary p s) 2 = p) := by
  refine ⟨rfl, fun hp => ?_⟩
  simp [resolveId, mkPrimarySecondary, resolveFallbackForRuntime, hp]

/-- Witness for claim C8's amended theorem. -/
theorem mkPrimarySecondary_amended_witness :
    resolveId (mkPrimarySecondary 5 7) 2 = 5 :=
  (mkPrimarySecondary_amended 5 7).2 (by decide)

end REL
